import Mathlib

/-!
Verification of the computer-use tool adapter
(`computer_use_demo/tools/computer.py`): coordinate scaling, key-action
parsing, typing chunking, cursor-position parsing, and the action
dispatcher grammar, shallowly embedded in Lean.

Python real arithmetic (float division and `round`) is modelled exactly
over `ℚ`, with `round` as round-half-to-even (banker's rounding, as in
CPython).  Python strings are modelled as Lean `String` restricted to
ASCII, which covers every string the source manipulates.
-/

deriving instance DecidableEq for Except

namespace ComputerDemo

/-- CPython `round` on exact rationals standing in for floats:
round half to even (banker's rounding). -/
def pyRound (q : ℚ) : ℤ :=
  if q - (q.floor : ℚ) < 1/2 then q.floor
  else if 1/2 < q - (q.floor : ℚ) then q.floor + 1
  else if q.floor % 2 = 0 then q.floor else q.floor + 1

theorem ratFloor_eq_intFloor (q : ℚ) : q.floor = ⌊q⌋ := rfl

/-- ASCII lower-casing of a character, as Python `str.lower` acts on the
ASCII inputs this tool handles. -/
def lowerChar (c : Char) : Char :=
  if 65 ≤ c.toNat ∧ c.toNat ≤ 90 then Char.ofNat (c.toNat + 32) else c

/-- Python `str.lower`, restricted to ASCII. -/
def pyLower (s : String) : String := String.mk (s.data.map lowerChar)

/-- `class Resolution(TypedDict)` (computer.py line 35). -/
structure Resolution where
  width : ℕ
  height : ℕ
deriving DecidableEq, Repr

/-- `class ScalingSource(StrEnum)` (computer.py line 49). -/
inductive ScalingSource
  | COMPUTER
  | API
deriving DecidableEq, Repr

/-- `MAX_SCALING_TARGETS` (computer.py lines 62-67).  The source assigns
this dict twice; the second assignment (which adds `RETINA_SCALED`)
shadows the first, so only it is modelled. -/
def MAX_SCALING_TARGETS : List (String × Resolution) :=
  [("RETINA_SCALED", ⟨1728, 1117⟩),
   ("XGA", ⟨1024, 768⟩),
   ("WXGA", ⟨1280, 800⟩),
   ("FWXGA", ⟨1366, 768⟩)]

/-- `ComputerTool.scale_coordinates` (computer.py lines 297-319).
`width`/`height` are the instance fields read from the environment,
`scalingEnabled` is `ComputerTool._scaling_enabled`.  Python `//` on
non-negative ints is `Nat` division; the float expressions are modelled
as exact rationals. -/
def scale_coordinates (scalingEnabled : Bool) (width height : ℕ)
    (source : ScalingSource) (x y : ℤ) : ℤ × ℤ :=
  if !scalingEnabled then (x, y)
  else
    let effectiveWidth : ℕ := width / 2
    let effectiveHeight : ℕ := height / 2
    let target : Resolution := (MAX_SCALING_TARGETS.lookup "RETINA_SCALED").getD ⟨0, 0⟩
    let xScale : ℚ := (effectiveWidth : ℚ) / (target.width : ℚ)
    let yScale : ℚ := (effectiveHeight : ℚ) / (target.height : ℚ)
    match source with
    | ScalingSource.API =>
        (pyRound ((x : ℚ) * xScale * 2), pyRound ((y : ℚ) * yScale * 2))
    | ScalingSource.COMPUTER =>
        (pyRound (((x : ℚ) / 2) / xScale), pyRound (((y : ℚ) / 2) / yScale))

/-- The target-selection policy the spec describes for the Coordinate
Scaler, written from the spec's words: pick a preset whose aspect ratio
matches the configured logical resolution within tolerance 0.02 and whose
width is smaller than the configured logical width; `none` when no preset
matches. -/
def aspectMatchedTarget (width height : ℕ) : Option Resolution :=
  (MAX_SCALING_TARGETS.map Prod.snd).find? (fun t =>
    decide (|(t.width : ℚ) / (t.height : ℚ) - (width : ℚ) / (height : ℚ)| < 2/100
      ∧ t.width < width))

/-- The same scaling arithmetic as `scale_coordinates`, but with the
target resolution a parameter; used to state that the code always scales
against one fixed target. -/
def scaleWithTarget (target : Resolution) (width height : ℕ)
    (source : ScalingSource) (x y : ℤ) : ℤ × ℤ :=
  let effectiveWidth : ℕ := width / 2
  let effectiveHeight : ℕ := height / 2
  let xScale : ℚ := (effectiveWidth : ℚ) / (target.width : ℚ)
  let yScale : ℚ := (effectiveHeight : ℚ) / (target.height : ℚ)
  match source with
  | ScalingSource.API =>
      (pyRound ((x : ℚ) * xScale * 2), pyRound ((y : ℚ) * yScale * 2))
  | ScalingSource.COMPUTER =>
      (pyRound (((x : ℚ) / 2) / xScale), pyRound (((y : ℚ) / 2) / yScale))

/-- `ComputerToolOptions` (computer.py lines 54-57). -/
structure ComputerToolOptions where
  display_width_px : ℤ
  display_height_px : ℤ
  display_number : Option ℤ
deriving DecidableEq, Repr

/-- The configuration state of a `ComputerTool` instance: `self.width`,
`self.height`, `self.display_num` (computer.py lines 103-109) and the
class attribute `_scaling_enabled` (line 87). -/
structure ComputerToolState where
  width : ℕ
  height : ℕ
  displayNum : Option ℤ
  scalingEnabled : Bool
deriving DecidableEq, Repr

/-- `ComputerTool.options` (computer.py lines 89-98). -/
def ComputerToolState.options (t : ComputerToolState) : ComputerToolOptions :=
  let wh := scale_coordinates t.scalingEnabled t.width t.height
    ScalingSource.COMPUTER (t.width : ℤ) (t.height : ℤ)
  ⟨wh.1, wh.2, t.displayNum⟩

/-! ### Errors, results and effects -/

/-- Modelled from the spec: the error taxonomy of section 7.  The
source's `ToolError` class (tools/base.py, which is not under src/)
carries only a message; `kind` records the spec's error class of each
raise site. -/
inductive ErrorKind
  | invalidArgument
  | unsupportedAction
  | outOfBounds
  | parseError
  | captureError
  | executionError
deriving DecidableEq, Repr

/-- Modelled from the spec: `ToolError` (tools/base.py, not under src/),
a structured failure carrying a human-readable message. -/
structure ToolError where
  kind : ErrorKind
  message : String
deriving DecidableEq, Repr

/-- Modelled from the spec: `ToolResult` (section 3; tools/base.py, not
under src/): output, error, base64Image, system, immutable, with
replace-semantics derivation. -/
structure ToolResult where
  output : Option String
  error : Option String
  base64Image : Option String
  system : Option String
deriving DecidableEq, Repr

/-- One observable backend step: a subprocess invocation through `run`,
or a call to `ComputerTool.screenshot`. -/
inductive Event
  | run (cmd : String)
  | screenshot
deriving DecidableEq, Repr

/-- Modelled from the spec: the effects environment.  `run` is the
Command Executor's captured (stdout, stderr) per command line
(tools/run.py is not under src/; modelled as a deterministic oracle),
and `screenshot` the outcome of `ComputerTool.screenshot` (whose body is
filesystem I/O, abstracted to its result). -/
structure Env where
  run : String → String × String
  screenshot : Except ToolError ToolResult

/-- `ComputerTool.shell` (computer.py lines 285-295), returning also the
trace of backend events.  The 2-second settle delay before the
screenshot is real time, not modelled. -/
def shell (env : Env) (command : String) (takeScreenshot : Bool) :
    Except ToolError (ToolResult × List Event) :=
  let so := env.run command
  if takeScreenshot then
    match env.screenshot with
    | .error e => .error e
    | .ok sr => .ok (⟨some so.1, some so.2, sr.base64Image, none⟩,
        [Event.run command, Event.screenshot])
  else .ok (⟨some so.1, some so.2, none, none⟩, [Event.run command])

/-! ### String helpers modelling Python primitives -/

/-- Python `s.split(sep)` for a non-empty separator, over character
lists.  `fuel` only bounds the recursion; it is instantiated with the
length of the string, which the recursion never exhausts, since each
step consumes at least one character. -/
def pySplitGo (sep : List Char) : ℕ → List Char → List (List Char)
  | _, [] => [[]]
  | 0, s => [s]
  | fuel + 1, c :: rest =>
    if sep.isPrefixOf (c :: rest) then
      [] :: pySplitGo sep fuel ((c :: rest).drop sep.length)
    else
      match pySplitGo sep fuel rest with
      | [] => [[c]]
      | t :: ts => (c :: t) :: ts

/-- Python `s.split(sep)` for a non-empty separator string. -/
def pySplit (sep s : String) : List String :=
  (pySplitGo sep.data s.data.length s.data).map String.mk

/-- Whether `sep` occurs as a contiguous substring of the list. -/
def containsSub (sep : List Char) : List Char → Bool
  | [] => sep.isEmpty
  | c :: rest => sep.isPrefixOf (c :: rest) || containsSub sep rest

/-- ASCII whitespace as stripped by CPython `int(str)`. -/
def pySpace (c : Char) : Bool :=
  c ∈ [' ', Char.ofNat 9, Char.ofNat 10, Char.ofNat 11, Char.ofNat 12, Char.ofNat 13]

/-- Decimal value of a digit list. -/
def digitsToNat : List Char → ℕ :=
  List.foldl (fun acc c => 10 * acc + (c.toNat - 48)) 0

/-- CPython `int(s)` on the ASCII decimal strings this tool parses:
optional surrounding whitespace, optional sign, one or more digits;
`none` models the `ValueError` raised otherwise.  (CPython additionally
accepts underscore grouping and non-ASCII digits, which never occur
here.) -/
def pyInt? (s : String) : Option ℤ :=
  let t := ((s.data.dropWhile pySpace).reverse.dropWhile pySpace).reverse
  match t with
  | [] => none
  | c :: rest =>
    if c = '-' then
      if rest ≠ [] ∧ rest.all Char.isDigit then some (-(digitsToNat rest : ℤ)) else none
    else if c = '+' then
      if rest ≠ [] ∧ rest.all Char.isDigit then some (digitsToNat rest : ℤ) else none
    else if (c :: rest).all Char.isDigit then some (digitsToNat (c :: rest) : ℤ)
    else none

/-- The single-quote character, written by code point to keep source
text plain. -/
def quoteChar : Char := Char.ofNat 39

/-- The double-quote character. -/
def dquoteChar : Char := Char.ofNat 34

/-- The character class CPython `shlex.quote` treats as safe:
ASCII letters, digits, and the punctuation characters
underscore `@ % + = : , .` slash and hyphen. -/
def shlexSafe (c : Char) : Bool :=
  c.isAlpha || c.isDigit || c ∈ ['_', '@', '%', '+', '=', ':', ',', '.', '/', '-']

/-- `shlex.quote`'s replacement of every single quote by the five-character
sequence quote, double-quote, quote, double-quote, quote. -/
def shlexEscapeQuote : List Char → List Char
  | [] => []
  | c :: rest =>
    if c = quoteChar then
      [quoteChar, dquoteChar, quoteChar, dquoteChar, quoteChar] ++ shlexEscapeQuote rest
    else c :: shlexEscapeQuote rest

/-- CPython `shlex.quote`. -/
def shlexQuote (s : String) : String :=
  if s.isEmpty then String.mk [quoteChar, quoteChar]
  else if s.data.all shlexSafe then s
  else String.mk ([quoteChar] ++ shlexEscapeQuote s.data ++ [quoteChar])

/-- Python `str` of a list of ints, as interpolated into the dispatcher's
error messages. -/
def pyListRepr (l : List ℤ) : String :=
  "[" ++ String.intercalate ", " (l.map toString) ++ "]"

/-! ### The key action -/

/-- `key_mapping` (computer.py lines 150-169). -/
def key_mapping : List (String × String) :=
  [("super", "cmd"), ("Return", "return"), ("space", "space"), ("Tab", "tab"),
   ("Left", "arrow-left"), ("Right", "arrow-right"), ("Up", "arrow-up"),
   ("Down", "arrow-down"), ("Escape", "esc"), ("BackSpace", "delete"),
   ("Delete", "fwd-delete"), ("Home", "home"), ("End", "end"),
   ("Page_Up", "page-up"), ("Page_Down", "page-down"),
   ("F1", "f1"), ("F2", "f2"), ("F3", "f3"), ("F4", "f4"), ("F5", "f5"),
   ("F6", "f6"), ("F7", "f7"), ("F8", "f8"), ("F9", "f9"), ("F10", "f10"),
   ("F11", "f11"), ("F12", "f12")]

/-- Python `key_mapping.get(key, key)`. -/
def keyMapGet (k : String) : String := (key_mapping.lookup k).getD k

/-- The modifier list of computer.py line 179. -/
def MODIFIER_KEYS : List String := ["alt", "cmd", "ctrl", "fn", "shift"]

/-- Membership test against `MODIFIER_KEYS`. -/
def isModifier (k : String) : Bool := MODIFIER_KEYS.contains k

/-- Python truthiness of `regular_key`: `None` and the empty string are
falsy. -/
def pyTruthy : Option String → Bool
  | none => false
  | some s => !s.isEmpty

/-- The token loop of the `key` branch (computer.py lines 176-184):
lower-cases each token, accumulates translated modifiers in order, and
allows at most one truthy regular key. -/
def classifyKeys : List String → List String → Option String →
    Except ToolError (List String × Option String)
  | [], modifiers, regularKey => .ok (modifiers, regularKey)
  | t :: ts, modifiers, regularKey =>
    let k := pyLower t
    if isModifier k then classifyKeys ts (modifiers ++ [keyMapGet k]) regularKey
    else if pyTruthy regularKey then
      .error ⟨ErrorKind.invalidArgument, "Only one non-modifier key allowed"⟩
    else classifyKeys ts modifiers (some (keyMapGet k))

/-- Command assembly of the `key` branch (computer.py lines 186-194):
key-down for the modifiers in order, key-press for a truthy regular key,
key-up for the modifiers reversed. -/
def buildKeyParts (modifiers : List String) (regularKey : Option String) : List String :=
  (if modifiers.isEmpty then [] else ["kd:" ++ String.intercalate "," modifiers]) ++
  (match regularKey with
   | some r => if r.isEmpty then [] else ["kp:" ++ r]
   | none => []) ++
  (if modifiers.isEmpty then [] else ["ku:" ++ String.intercalate "," modifiers.reverse])

/-- The `key` action (computer.py lines 148-197): the assembled cliclick
command line, or the error the branch raises. -/
def keyCommand (text : String) : Except ToolError String :=
  match classifyKeys (pySplit "+" text) [] none with
  | .error e => .error e
  | .ok (modifiers, regularKey) =>
      .ok ("cliclick " ++ String.intercalate " " (buildKeyParts modifiers regularKey))

/-! ### The type action -/

/-- `TYPING_DELAY_MS` (computer.py line 18). -/
def TYPING_DELAY_MS : ℕ := 12

/-- `TYPING_GROUP_SIZE` (computer.py line 19). -/
def TYPING_GROUP_SIZE : ℕ := 50

/-- `chunks(s, chunk_size)` (computer.py lines 70-71): Python
`range(0, len(s), n)` enumerates the start indices `j * n` for
`j` below the ceiling of `len(s) / n`, and the slice from `i` of width
`n` is take-`n`-after-drop-`i`.  (Only called with `n = 50`.) -/
def chunks (s : String) (chunkSize : ℕ) : List String :=
  (List.range ((s.length + chunkSize - 1) / chunkSize)).map
    (fun j => String.mk ((s.data.drop (j * chunkSize)).take chunkSize))

/-- The command line sent for one typing chunk (computer.py line 203). -/
def typeCmd (chunk : String) : String :=
  "cliclick w:" ++ toString TYPING_DELAY_MS ++ " t:" ++ shlexQuote chunk

/-- The per-chunk loop of the `type` branch (computer.py lines 201-204):
each chunk goes through `shell` with `take_screenshot=False`, whose
result is the inlined ToolResult (see `shell_no_screenshot`). -/
def typeLoop (env : Env) : List String → List ToolResult × List Event
  | [] => ([], [])
  | chunk :: rest =>
    let so := env.run (typeCmd chunk)
    let r := typeLoop env rest
    (⟨some so.1, some so.2, none, none⟩ :: r.1, Event.run (typeCmd chunk) :: r.2)

/-- The `type` branch (computer.py lines 199-210): run all chunks, then
one screenshot, and concatenate outputs and errors across chunks. -/
def typeAction (env : Env) (text : String) : Except ToolError (ToolResult × List Event) :=
  let r := typeLoop env (chunks text TYPING_GROUP_SIZE)
  match env.screenshot with
  | .error e => .error e
  | .ok sr =>
      .ok (⟨some (String.join (r.1.map (fun tr => tr.output.getD ""))),
            some (String.join (r.1.map (fun tr => tr.error.getD ""))),
            sr.base64Image, none⟩,
           r.2 ++ [Event.screenshot])

/-! ### The cursor_position action -/

/-- Parse of the `cliclick p` report (computer.py lines 231-236):
index 1 of the split on colon-space, then the split of that on
comma-space, then `int` of components 0 and 1; `none` models the caught
IndexError / ValueError. -/
def parseCursorOutput (output : String) : Option (ℤ × ℤ) :=
  match (pySplit ": " output)[1]? with
  | none => none
  | some rest =>
    let coords := pySplit ", " rest
    match coords[0]?, coords[1]? with
    | some c0, some c1 =>
      match pyInt? c0, pyInt? c1 with
      | some a, some b => some (a, b)
      | _, _ => none
    | _, _ => none

/-- The `cursor_position` branch (computer.py lines 227-240) applied to
the captured stdout/stderr of `cliclick p`: parse, scale with source
COMPUTER, and replace the result's output with the formatted pair; parse
failures raise `ToolError` (the Python message also embeds the exception
text, which is not modelled). -/
def cursorPositionResult (scalingEnabled : Bool) (width height : ℕ)
    (stdout stderr : String) : Except ToolError ToolResult :=
  match parseCursorOutput stdout with
  | none => .error ⟨ErrorKind.parseError, "Failed to parse cursor position"⟩
  | some (px, py) =>
    let xy := scale_coordinates scalingEnabled width height ScalingSource.COMPUTER px py
    .ok ⟨some ("X=" ++ toString xy.1 ++ ",Y=" ++ toString xy.2), some stderr, none, none⟩

/-! ### The dispatcher -/

/-- `click_mapping` (computer.py lines 243-248); `none` is the Python
`None` marking middle click as unsupported by cliclick. -/
def click_mapping : List (String × Option String) :=
  [("left_click", some "c:."), ("right_click", some "rc:."),
   ("middle_click", none), ("double_click", some "dc:.")]

/-- `ComputerTool.__call__` (computer.py lines 111-259).  `text` and
`coordinate` are the typed views of the keyword arguments; the Python
type annotation for `coordinate` says tuple but the runtime check
requires a list, so it is modelled as an optional list of ints (the
`isinstance` re-checks on already-typed values are not representable). -/
def dispatch (env : Env) (tool : ComputerToolState) (action : String)
    (text : Option String) (coordinate : Option (List ℤ)) :
    Except ToolError (ToolResult × List Event) :=
  if action ∈ ["mouse_move", "left_click_drag"] then
    match coordinate with
    | none => .error ⟨ErrorKind.invalidArgument, "coordinate is required for " ++ action⟩
    | some coord =>
      if text.isSome then
        .error ⟨ErrorKind.invalidArgument, "text is not accepted for " ++ action⟩
      else if coord.length ≠ 2 then
        .error ⟨ErrorKind.invalidArgument, pyListRepr coord ++ " must be a tuple of length 2"⟩
      else if !(coord.all (fun i => decide (0 ≤ i))) then
        .error ⟨ErrorKind.invalidArgument,
          pyListRepr coord ++ " must be a tuple of non-negative ints"⟩
      else
        let xy := scale_coordinates tool.scalingEnabled tool.width tool.height
          ScalingSource.API (coord.getD 0 0) (coord.getD 1 0)
        if action = "mouse_move" then
          shell env ("cliclick m:" ++ toString xy.1 ++ "," ++ toString xy.2) true
        else
          shell env ("cliclick dd:" ++ toString xy.1 ++ "," ++ toString xy.2) true
  else if action ∈ ["key", "type"] then
    match text with
    | none => .error ⟨ErrorKind.invalidArgument, "text is required for " ++ action⟩
    | some t =>
      if coordinate.isSome then
        .error ⟨ErrorKind.invalidArgument, "coordinate is not accepted for " ++ action⟩
      else if action = "key" then
        match keyCommand t with
        | .error e => .error e
        | .ok cmd => shell env cmd true
      else typeAction env t
  else if action ∈ ["left_click", "right_click", "double_click", "middle_click",
      "screenshot", "cursor_position"] then
    if text.isSome then
      .error ⟨ErrorKind.invalidArgument, "text is not accepted for " ++ action⟩
    else if coordinate.isSome then
      .error ⟨ErrorKind.invalidArgument, "coordinate is not accepted for " ++ action⟩
    else if action = "screenshot" then
      match env.screenshot with
      | .error e => .error e
      | .ok sr => .ok (sr, [Event.screenshot])
    else if action = "cursor_position" then
      let so := env.run "cliclick p"
      match cursorPositionResult tool.scalingEnabled tool.width tool.height so.1 so.2 with
      | .error e => .error e
      | .ok tr => .ok (tr, [Event.run "cliclick p"])
    else
      match click_mapping.lookup action with
      | none => .error ⟨ErrorKind.unsupportedAction,
          "Unsupported click action: " ++ action⟩
      | some none => .error ⟨ErrorKind.unsupportedAction,
          "Action " ++ action ++ " is not supported by cliclick on macOS"⟩
      | some (some c) => shell env ("cliclick " ++ c) true
  else .error ⟨ErrorKind.invalidArgument, "Invalid action: " ++ action⟩

/-- The field grammar of the spec's section 4.1, as C8 states it; written
from the spec's words, to be compared against `dispatch`. -/
def grammarOkSpec (action : String) (text : Option String)
    (coordinate : Option (List ℤ)) : Bool :=
  if action ∈ ["mouse_move", "left_click_drag"] then
    text.isNone && (match coordinate with
      | some l => decide (l.length = 2) && l.all (fun i => decide (0 ≤ i))
      | none => false)
  else if action ∈ ["key", "type"] then
    text.isSome && coordinate.isNone
  else if action ∈ ["left_click", "right_click", "double_click", "middle_click",
      "screenshot", "cursor_position"] then
    text.isNone && coordinate.isNone
  else false

/-- Whether a dispatch outcome is a failure of the given error kind. -/
def failsWith (r : Except ToolError (ToolResult × List Event)) (k : ErrorKind) : Bool :=
  match r with
  | .error e => decide (e.kind = k)
  | .ok _ => false

/-- A concrete effects environment for witnesses: stdout echoes the
command line, stderr is empty, screenshots succeed with a fixed
payload. -/
def envW : Env :=
  ⟨fun c => (c, ""), Except.ok ⟨none, none, some "IMG64", none⟩⟩

/-- The screenshot result `envW` returns. -/
def srW : ToolResult := ⟨none, none, some "IMG64", none⟩

/-- A 60-character text used to witness multi-chunk typing. -/
def typeTextW : String := "012345678901234567890123456789012345678901234567890123456789"

/-! ### Rounding lemmas -/

theorem pyRound_sub_abs_le (q : ℚ) : |(pyRound q : ℚ) - q| ≤ 1/2 := by
  have h1 : ((⌊q⌋ : ℤ) : ℚ) ≤ q := Int.floor_le q
  have h2 : q < (⌊q⌋ : ℚ) + 1 := Int.lt_floor_add_one q
  unfold pyRound
  rw [ratFloor_eq_intFloor]
  split_ifs with ha hb hc <;> rw [abs_le] <;> push_cast <;> constructor <;> linarith

theorem pyRound_intCast (n : ℤ) : pyRound (n : ℚ) = n := by
  unfold pyRound
  rw [ratFloor_eq_intFloor, Int.floor_intCast]
  simp

/-- Round-trip error bound for scale-up then scale-down by a factor
`a ≥ 1/2`, each step rounded. -/
theorem pyRound_roundtrip (a : ℚ) (x : ℤ) (ha : 1/2 ≤ a) :
    |pyRound ((pyRound ((x : ℚ) * a) : ℚ) / a) - x| ≤ 1 := by
  have ha0 : (0 : ℚ) < a := lt_of_lt_of_le (by norm_num) ha
  set X : ℤ := pyRound ((x : ℚ) * a) with hX
  have h1 : |(X : ℚ) - (x : ℚ) * a| ≤ 1/2 := pyRound_sub_abs_le _
  have h2 : |(X : ℚ) / a - (x : ℚ)| ≤ (1/2) / a := by
    have hrw : (X : ℚ) / a - (x : ℚ) = ((X : ℚ) - (x : ℚ) * a) / a := by
      field_simp; ring
    rw [hrw, abs_div, abs_of_pos ha0]
    exact div_le_div_of_nonneg_right h1 ha0.le
  have h3 : |(pyRound ((X : ℚ) / a) : ℚ) - (X : ℚ) / a| ≤ 1/2 :=
    pyRound_sub_abs_le _
  have h4 : (1/2 : ℚ) / a ≤ 1 := by
    rw [div_le_one ha0]; linarith
  set r : ℤ := pyRound ((X : ℚ) / a) with hr
  have h5 : |(r : ℚ) - (x : ℚ)| ≤ 3/2 := by
    calc |(r : ℚ) - (x : ℚ)|
        ≤ |(r : ℚ) - (X : ℚ) / a| + |(X : ℚ) / a - (x : ℚ)| := abs_sub_le _ _ _
      _ ≤ 1/2 + (1/2) / a := add_le_add h3 h2
      _ ≤ 3/2 := by linarith
  have h6 : |((r - x : ℤ) : ℚ)| ≤ 3/2 := by push_cast; exact h5
  have h7 : ((|r - x| : ℤ) : ℚ) ≤ 3/2 := by rw [Int.cast_abs]; exact h6
  have h8 : |r - x| < 2 := by
    have h8a : ((|r - x| : ℤ) : ℚ) < 2 := lt_of_le_of_lt h7 (by norm_num)
    exact_mod_cast h8a
  have h9 := abs_lt.mp h8
  exact abs_le.mpr ⟨by omega, by omega⟩

/-- Round-trip error bound in the syntactic shape of
`scale_coordinates`: scale up by `s * 2`, scale down by halving then
dividing by `s`, both rounded. -/
theorem pyRound_updown (s : ℚ) (x : ℤ) (hs : 1/4 ≤ s) :
    |pyRound (((pyRound ((x : ℚ) * s * 2) : ℚ) / 2) / s) - x| ≤ 1 := by
  have h1 : (1/2 : ℚ) ≤ s * 2 := by linarith
  have h2 := pyRound_roundtrip (s * 2) x h1
  have e1 : (x : ℚ) * s * 2 = (x : ℚ) * (s * 2) := by ring
  have e2 : ((pyRound ((x : ℚ) * (s * 2)) : ℚ) / 2) / s
      = (pyRound ((x : ℚ) * (s * 2)) : ℚ) / (s * 2) := by
    rw [div_div, mul_comm 2 s]
  rw [e1, e2]
  exact h2

/-! ### Unfolding equations for `scale_coordinates` -/

theorem scale_API_eq (W H : ℕ) (x y : ℤ) :
    scale_coordinates true W H ScalingSource.API x y =
      (pyRound ((x : ℚ) * (((W / 2 : ℕ) : ℚ) / ((1728 : ℕ) : ℚ)) * 2),
       pyRound ((y : ℚ) * (((H / 2 : ℕ) : ℚ) / ((1117 : ℕ) : ℚ)) * 2)) := rfl

theorem scale_COMPUTER_eq (W H : ℕ) (x y : ℤ) :
    scale_coordinates true W H ScalingSource.COMPUTER x y =
      (pyRound (((x : ℚ) / 2) / (((W / 2 : ℕ) : ℚ) / ((1728 : ℕ) : ℚ))),
       pyRound (((y : ℚ) / 2) / (((H / 2 : ℕ) : ℚ) / ((1117 : ℕ) : ℚ)))) := rfl

/-! ### C1: scaling round trip -/

/-- C1 (amended): with scaling enabled and the configured resolution at
least 864 wide and 560 high (so that each axis's agent-to-physical
factor is at least 1/2), every in-bounds non-negative coordinate pair
scaled agent-to-physical (source API) and back (source COMPUTER) lands
within ±1 pixel of the original.  (For smaller configured resolutions
the bound fails, see the counterexample.) -/
theorem scale_roundtrip_within_one (W H : ℕ) (x y : ℤ)
    (hW : 864 ≤ W) (hH : 560 ≤ H) (hx0 : 0 ≤ x) (hxW : x ≤ (W : ℤ))
    (hy0 : 0 ≤ y) (hyH : y ≤ (H : ℤ)) :
    |(scale_coordinates true W H ScalingSource.COMPUTER
        (scale_coordinates true W H ScalingSource.API x y).1
        (scale_coordinates true W H ScalingSource.API x y).2).1 - x| ≤ 1 ∧
    |(scale_coordinates true W H ScalingSource.COMPUTER
        (scale_coordinates true W H ScalingSource.API x y).1
        (scale_coordinates true W H ScalingSource.API x y).2).2 - y| ≤ 1 := by
  have h1728 : (0 : ℚ) < ((1728 : ℕ) : ℚ) := by norm_num
  have h1117 : (0 : ℚ) < ((1117 : ℕ) : ℚ) := by norm_num
  have hsx : (1/4 : ℚ) ≤ ((W / 2 : ℕ) : ℚ) / ((1728 : ℕ) : ℚ) := by
    have h432 : (432 : ℕ) ≤ W / 2 := by omega
    have hc : ((432 : ℕ) : ℚ) ≤ ((W / 2 : ℕ) : ℚ) := Nat.cast_le.mpr h432
    calc (1/4 : ℚ) = ((432 : ℕ) : ℚ) / ((1728 : ℕ) : ℚ) := by norm_num
      _ ≤ ((W / 2 : ℕ) : ℚ) / ((1728 : ℕ) : ℚ) := by
          exact div_le_div_of_nonneg_right hc h1728.le
  have hsy : (1/4 : ℚ) ≤ ((H / 2 : ℕ) : ℚ) / ((1117 : ℕ) : ℚ) := by
    have h280 : (280 : ℕ) ≤ H / 2 := by omega
    have hc : ((280 : ℕ) : ℚ) ≤ ((H / 2 : ℕ) : ℚ) := Nat.cast_le.mpr h280
    calc (1/4 : ℚ) ≤ ((280 : ℕ) : ℚ) / ((1117 : ℕ) : ℚ) := by norm_num
      _ ≤ ((H / 2 : ℕ) : ℚ) / ((1117 : ℕ) : ℚ) := by
          exact div_le_div_of_nonneg_right hc h1117.le
  rw [scale_API_eq, scale_COMPUTER_eq]
  exact ⟨pyRound_updown _ x hsx, pyRound_updown _ y hsy⟩

/-- C1 counterexample: at the positive configured resolution 100 x 100
with scaling enabled, the in-bounds pair (10, 10) round-trips to
(17, 11), off by 7 pixels on the x axis. -/
theorem scale_roundtrip_counterexample :
    (0 < (100 : ℕ) ∧ (0 : ℤ) ≤ 10 ∧ (10 : ℤ) ≤ 100) ∧
    scale_coordinates true 100 100 ScalingSource.API 10 10 = (1, 1) ∧
    scale_coordinates true 100 100 ScalingSource.COMPUTER 1 1 = (17, 11) ∧
    1 < |(17 : ℤ) - 10| := by
  with_unfolding_all decide

/-- C1 witness: at the Retina configuration 3456 x 2234 the pair
(123, 456) round-trips within ±1. -/
theorem scale_roundtrip_within_one_witness :
    (864 ≤ 3456 ∧ 560 ≤ 2234 ∧ (0 : ℤ) ≤ 123 ∧ (123 : ℤ) ≤ (3456 : ℕ) ∧
      (0 : ℤ) ≤ 456 ∧ (456 : ℤ) ≤ (2234 : ℕ)) ∧
    (|(scale_coordinates true 3456 2234 ScalingSource.COMPUTER
        (scale_coordinates true 3456 2234 ScalingSource.API 123 456).1
        (scale_coordinates true 3456 2234 ScalingSource.API 123 456).2).1 - 123| ≤ 1 ∧
     |(scale_coordinates true 3456 2234 ScalingSource.COMPUTER
        (scale_coordinates true 3456 2234 ScalingSource.API 123 456).1
        (scale_coordinates true 3456 2234 ScalingSource.API 123 456).2).2 - 456| ≤ 1) :=
  ⟨by decide, scale_roundtrip_within_one 3456 2234 123 456 (by decide) (by decide)
    (by decide) (by decide) (by decide) (by decide)⟩

/-! ### C2: target selection -/

/-- C2 (amended): with scaling enabled, `scale_coordinates` always
scales against the fixed RETINA_SCALED preset 1728 x 1117 of the
resolution table, for every configured resolution and both directions;
no aspect-ratio match is consulted and there is no no-op fallback. -/
theorem scale_fixed_retina_target (W H : ℕ) (src : ScalingSource) (x y : ℤ) :
    scale_coordinates true W H src x y = scaleWithTarget ⟨1728, 1117⟩ W H src x y ∧
    MAX_SCALING_TARGETS.lookup "RETINA_SCALED" = some ⟨1728, 1117⟩ := by
  constructor
  · cases src <;> rfl
  · rfl

/-- C2 counterexample: at configured resolution 1000 x 1000 no preset
matches the aspect ratio within tolerance 0.02 with width below 1000,
yet `scale_coordinates` does not return its input unchanged. -/
theorem scale_aspect_policy_counterexample :
    aspectMatchedTarget 1000 1000 = none ∧
    scale_coordinates true 1000 1000 ScalingSource.API 100 100 = (58, 90) ∧
    scale_coordinates true 1000 1000 ScalingSource.API 100 100 ≠ (100, 100) := by
  with_unfolding_all decide

/-! ### C10: advertised options -/

theorem pyRound_natCast (n : ℕ) : pyRound ((n : ℚ)) = (n : ℤ) := by
  have h : ((n : ℤ) : ℚ) = (n : ℚ) := by push_cast; ring
  rw [← h, pyRound_intCast]

/-- C10: with scaling enabled and an even positive configured
resolution, the advertised options are exactly 1728 x 1117 regardless of
the configured WIDTH and HEIGHT. -/
theorem options_fixed_retina (W H : ℕ) (dn : Option ℤ)
    (hWe : W % 2 = 0) (hHe : H % 2 = 0) (hW0 : 0 < W) (hH0 : 0 < H) :
    (ComputerToolState.mk W H dn true).options = ⟨1728, 1117, dn⟩ := by
  obtain ⟨k, rfl⟩ : ∃ k, W = 2 * k := ⟨W / 2, by omega⟩
  obtain ⟨l, rfl⟩ : ∃ l, H = 2 * l := ⟨H / 2, by omega⟩
  have hk : ((k : ℚ)) ≠ 0 := Nat.cast_ne_zero.mpr (by omega)
  have hl : ((l : ℚ)) ≠ 0 := Nat.cast_ne_zero.mpr (by omega)
  unfold ComputerToolState.options
  dsimp only
  rw [scale_COMPUTER_eq]
  have ex : ((2 * k / 2 : ℕ) : ℚ) = (k : ℚ) := by
    norm_num
  have ey : ((2 * l / 2 : ℕ) : ℚ) = (l : ℚ) := by
    norm_num
  have vx : ((((2 * k : ℕ) : ℤ) : ℚ) / 2) / (((2 * k / 2 : ℕ) : ℚ) / ((1728 : ℕ) : ℚ))
      = ((1728 : ℕ) : ℚ) := by
    rw [ex]; push_cast; field_simp
  have vy : ((((2 * l : ℕ) : ℤ) : ℚ) / 2) / (((2 * l / 2 : ℕ) : ℚ) / ((1117 : ℕ) : ℚ))
      = ((1117 : ℕ) : ℚ) := by
    rw [ey]; push_cast; field_simp
  dsimp only
  rw [vx, vy, pyRound_natCast, pyRound_natCast]
  rfl

/-- C10 witness: the 3456 x 2234 Retina configuration advertises
1728 x 1117. -/
theorem options_fixed_retina_witness :
    (3456 % 2 = 0 ∧ 2234 % 2 = 0 ∧ 0 < (3456 : ℕ) ∧ 0 < (2234 : ℕ)) ∧
    (ComputerToolState.mk 3456 2234 (some 1) true).options = ⟨1728, 1117, some 1⟩ :=
  ⟨by decide, options_fixed_retina 3456 2234 (some 1) (by decide) (by decide)
    (by decide) (by decide)⟩

/-! ### C4: the symbolic key-name table -/

/-- C4: the key branch lower-cases every token before the table lookup,
so the capitalized entry for BackSpace never fires: the command generated
for key text BackSpace presses `backspace`, although the table itself
translates `BackSpace` to `delete`. -/
theorem key_backspace_not_translated :
    keyCommand "BackSpace" = .ok "cliclick kp:backspace" ∧
    keyMapGet "BackSpace" = "delete" ∧
    keyMapGet (pyLower "BackSpace") = "backspace" := by
  with_unfolding_all decide

/-! ### C5: modifier stacking -/

theorem keyMapGet_modifier (m : String) (hm : isModifier m = true) :
    keyMapGet m = m := by
  have hmem : m ∈ MODIFIER_KEYS := by
    simpa [isModifier] using hm
  fin_cases hmem <;> rfl

theorem map_keyMapGet_modifiers (l : List String)
    (h : ∀ m ∈ l, isModifier m = true) : l.map keyMapGet = l := by
  induction l with
  | nil => rfl
  | cons m ms ih =>
      rw [List.map_cons, keyMapGet_modifier m (h m (List.mem_cons_self m ms)),
        ih (fun u hu => h u (List.mem_cons_of_mem m hu))]

theorem keyMapGet_ne_empty (k : String) (hk : k ≠ "") : keyMapGet k ≠ "" := by
  unfold keyMapGet
  cases h : key_mapping.lookup k with
  | none => simpa using hk
  | some v =>
      obtain ⟨l₁, l₂, he, -⟩ := List.lookup_eq_some_iff.mp h
      have hmem : (k, v) ∈ key_mapping := by
        rw [he]; simp
      have hall : ∀ p ∈ key_mapping, p.2 ≠ "" := by decide
      simpa using hall _ hmem

theorem string_isEmpty_false (r : String) (hr : r ≠ "") : r.isEmpty = false := by
  rw [Bool.eq_false_iff]
  intro h
  exact hr ((String.isEmpty_iff r).mp h)

theorem pyTruthy_of_ne_empty (r : String) (hr : r ≠ "") :
    pyTruthy (some r) = true := by
  simp [pyTruthy, string_isEmpty_false r hr]

/-- Processing a block of modifier tokens appends their translations, in
order, to the accumulated modifier list. -/
theorem classifyKeys_mods_append (ts1 ts2 : List String) (ms : List String)
    (rk : Option String) (h : ∀ t ∈ ts1, isModifier (pyLower t) = true) :
    classifyKeys (ts1 ++ ts2) ms rk
      = classifyKeys ts2 (ms ++ ts1.map (fun t => keyMapGet (pyLower t))) rk := by
  induction ts1 generalizing ms with
  | nil => simp
  | cons t ts ih =>
      have ht : isModifier (pyLower t) = true := h t (List.mem_cons_self t ts)
      have hts : ∀ u ∈ ts, isModifier (pyLower u) = true :=
        fun u hu => h u (List.mem_cons_of_mem t hu)
      simp only [List.cons_append, classifyKeys, ht, if_true, List.append_eq]
      rw [ih _ hts]
      simp [List.append_assoc]

/-- C5 (amended): splitting the key text on plus and lower-casing, with
`pre` and `mid` blocks of modifier tokens around a single nonempty
non-modifier token `k`, the branch emits one command that presses the
modifiers down in order of appearance, presses the key, and releases the
modifiers in reverse order; and a second non-modifier token after a
nonempty one fails with InvalidArgument.  (An empty non-modifier token
does not occupy the key slot, see the counterexample; the claim's
unconditional two-token failure is amended to require the first
non-modifier token to be nonempty.) -/
theorem key_modifier_stacking :
    (∀ (text : String) (pre mid : List String) (k : String),
      (∀ m ∈ pre, isModifier m = true) → (∀ m ∈ mid, isModifier m = true) →
      isModifier k = false → k ≠ "" →
      (pySplit "+" text).map pyLower = pre ++ k :: mid →
      keyCommand text = .ok (if (pre ++ mid).isEmpty then
          "cliclick " ++ ("kp:" ++ keyMapGet k)
        else
          "cliclick " ++ (("kd:" ++ String.intercalate "," (pre ++ mid)) ++ " " ++
            ("kp:" ++ keyMapGet k) ++ " " ++
            ("ku:" ++ String.intercalate "," (pre ++ mid).reverse)))) ∧
    (∀ (text : String) (pre mid rest : List String) (k k2 : String),
      (∀ m ∈ pre, isModifier m = true) → (∀ m ∈ mid, isModifier m = true) →
      isModifier k = false → k ≠ "" → isModifier k2 = false →
      (pySplit "+" text).map pyLower = pre ++ k :: (mid ++ k2 :: rest) →
      keyCommand text =
        .error ⟨ErrorKind.invalidArgument, "Only one non-modifier key allowed"⟩) := by
  constructor
  · intro text pre mid k hpre hmid hk hk0 htoks
    obtain ⟨A, B', hts, hA, hB'⟩ := List.map_eq_append_iff.mp htoks
    obtain ⟨t, B, hB'', hkt, hB⟩ := List.map_eq_cons_iff.mp hB'
    have hAmods : ∀ u ∈ A, isModifier (pyLower u) = true := by
      intro u hu
      exact hpre _ (hA ▸ List.mem_map_of_mem pyLower hu)
    have hBmods : ∀ u ∈ B, isModifier (pyLower u) = true := by
      intro u hu
      exact hmid _ (hB ▸ List.mem_map_of_mem pyLower hu)
    have hmapA : A.map (fun t => keyMapGet (pyLower t)) = pre := by
      have : A.map (fun t => keyMapGet (pyLower t)) = (A.map pyLower).map keyMapGet := by
        rw [List.map_map]; rfl
      rw [this, hA, map_keyMapGet_modifiers pre hpre]
    have hmapB : B.map (fun t => keyMapGet (pyLower t)) = mid := by
      have : B.map (fun t => keyMapGet (pyLower t)) = (B.map pyLower).map keyMapGet := by
        rw [List.map_map]; rfl
      rw [this, hB, map_keyMapGet_modifiers mid hmid]
    unfold keyCommand
    rw [hts, hB'']
    rw [classifyKeys_mods_append A (t :: B) [] none hAmods]
    simp only [List.nil_append]
    rw [show classifyKeys (t :: B) (A.map (fun t => keyMapGet (pyLower t))) none
        = classifyKeys B (A.map (fun t => keyMapGet (pyLower t)))
            (some (keyMapGet (pyLower t))) by
      simp only [classifyKeys, hkt, hk, pyTruthy, Bool.false_eq_true, if_false]]
    rw [← List.append_nil B, classifyKeys_mods_append B [] _ _ hBmods]
    simp only [classifyKeys, hmapA, hmapB, hkt]
    have hkp : (keyMapGet k).isEmpty = false :=
      string_isEmpty_false _ (keyMapGet_ne_empty k hk0)
    cases hempty : (pre ++ mid).isEmpty with
    | true =>
        simp only [buildKeyParts, hempty, if_true, hkp, Bool.false_eq_true, if_false]
        simp [String.intercalate, String.intercalate.go]
    | false =>
        simp only [buildKeyParts, hempty, Bool.false_eq_true, if_false, hkp]
        simp [String.intercalate, String.intercalate.go]
  · intro text pre mid rest k k2 hpre hmid hk hk0 hk2 htoks
    obtain ⟨A, B', hts, hA, hB'⟩ := List.map_eq_append_iff.mp htoks
    obtain ⟨t, B, hB'', hkt, hB⟩ := List.map_eq_cons_iff.mp hB'
    obtain ⟨C, D', hBsplit, hC, hD'⟩ := List.map_eq_append_iff.mp hB
    obtain ⟨t2, D, hD'', hkt2, hD⟩ := List.map_eq_cons_iff.mp hD'
    have hAmods : ∀ u ∈ A, isModifier (pyLower u) = true := by
      intro u hu
      exact hpre _ (hA ▸ List.mem_map_of_mem pyLower hu)
    have hCmods : ∀ u ∈ C, isModifier (pyLower u) = true := by
      intro u hu
      exact hmid _ (hC ▸ List.mem_map_of_mem pyLower hu)
    unfold keyCommand
    rw [hts, hB'', hBsplit, hD'']
    rw [classifyKeys_mods_append A (t :: (C ++ t2 :: D)) [] none hAmods]
    simp only [List.nil_append]
    rw [show classifyKeys (t :: (C ++ t2 :: D)) (A.map (fun u => keyMapGet (pyLower u))) none
        = classifyKeys (C ++ t2 :: D) (A.map (fun u => keyMapGet (pyLower u)))
            (some (keyMapGet (pyLower t))) by
      simp only [classifyKeys, hkt, hk, pyTruthy, Bool.false_eq_true, if_false]]
    rw [classifyKeys_mods_append C (t2 :: D) _ _ hCmods]
    have htruthy : pyTruthy (some (keyMapGet (pyLower t))) = true := by
      rw [hkt]; exact pyTruthy_of_ne_empty _ (keyMapGet_ne_empty k hk0)
    simp only [classifyKeys, hkt2, hk2, htruthy, Bool.false_eq_true, if_false, if_true]

/-- C5 witness: the spec's example.  ctrl+shift+Escape decomposes into
modifiers ctrl, shift and key escape, and the generated command presses
the modifiers in order, presses escape, and releases them reversed. -/
theorem key_modifier_stacking_witness :
    (pySplit "+" "ctrl+shift+Escape").map pyLower = ["ctrl", "shift"] ++ "escape" :: [] ∧
    keyCommand "ctrl+shift+Escape" = .ok "cliclick kd:ctrl,shift kp:escape ku:shift,ctrl" := by
  constructor
  · with_unfolding_all decide
  · have h := key_modifier_stacking.1 "ctrl+shift+Escape" ["ctrl", "shift"] [] "escape"
      (by decide) (by decide) (by decide) (by decide) (by with_unfolding_all decide)
    rw [h]
    with_unfolding_all decide

/-- C5 counterexample: the text plus-a splits into two non-modifier
tokens (the empty token and a), yet the dispatcher succeeds instead of
failing with InvalidArgument, because the empty token leaves the key
slot falsy. -/
theorem key_empty_token_counterexample :
    ((pySplit "+" "+a").map pyLower).countP (fun t => !isModifier t) = 2 ∧
    keyCommand "+a" = .ok "cliclick kp:a" := by
  with_unfolding_all decide

/-! ### C6: typing in chunks -/

theorem typeLoop_eq (env : Env) (cs : List String) :
    typeLoop env cs =
      (cs.map (fun c => ⟨some (env.run (typeCmd c)).1, some (env.run (typeCmd c)).2,
        none, none⟩),
       cs.map (fun c => Event.run (typeCmd c))) := by
  induction cs with
  | nil => rfl
  | cons c cs ih => simp [typeLoop, ih]

theorem foldl_append_mk (acc : List Char) (L : List (List Char)) :
    List.foldl (fun r s => r ++ s) (String.mk acc) (L.map String.mk)
      = String.mk (acc ++ L.flatten) := by
  induction L generalizing acc with
  | nil => simp
  | cons l ls ih =>
      simp only [List.map_cons, List.foldl_cons, List.flatten_cons]
      have hm : String.mk acc ++ String.mk l = String.mk (acc ++ l) := rfl
      rw [hm, ih]
      simp [List.append_assoc]

theorem join_map_mk (L : List (List Char)) :
    String.join (L.map String.mk) = String.mk L.flatten := by
  have h0 : ("" : String) = String.mk [] := rfl
  unfold String.join
  rw [h0, foldl_append_mk]
  simp

theorem chunksList_join50 : ∀ (N : ℕ) (l : List Char), l.length ≤ N →
    ((List.range ((l.length + 49) / 50)).map (fun j => (l.drop (j * 50)).take 50)).flatten
      = l := by
  intro N
  induction N with
  | zero =>
      intro l hl
      have : l = [] := List.eq_nil_of_length_eq_zero (by omega)
      subst this
      simp
  | succ N ih =>
      intro l hl
      by_cases h0 : l.length = 0
      · have : l = [] := List.eq_nil_of_length_eq_zero h0
        subst this
        simp
      · have hk : (l.length + 49) / 50 = ((l.drop 50).length + 49) / 50 + 1 := by
          rw [List.length_drop]; omega
        rw [hk, List.range_succ_eq_map]
        simp only [List.map_cons, List.map_map, List.flatten_cons, Nat.zero_mul,
          List.drop_zero]
        have hfun : ((fun j => (l.drop (j * 50)).take 50) ∘ Nat.succ)
            = (fun j => ((l.drop 50).drop (j * 50)).take 50) := by
          funext j
          simp only [Function.comp_apply, List.drop_drop]
          have harith : Nat.succ j * 50 = 50 + j * 50 := by omega
          rw [harith]
        rw [hfun, ih (l.drop 50) (by rw [List.length_drop]; omega)]
        exact List.take_append_drop 50 l

theorem chunks_join50 (s : String) : String.join (chunks s TYPING_GROUP_SIZE) = s := by
  unfold chunks TYPING_GROUP_SIZE
  have harith : s.length + 50 - 1 = s.length + 49 := by omega
  rw [harith]
  have hfuse : (List.range ((s.length + 49) / 50)).map
      (fun j => String.mk ((s.data.drop (j * 50)).take 50))
      = ((List.range ((s.length + 49) / 50)).map
          (fun j => (s.data.drop (j * 50)).take 50)).map String.mk := by
    rw [List.map_map]; rfl
  rw [hfuse, join_map_mk]
  have hlen : s.length = s.data.length := rfl
  rw [hlen, chunksList_join50 s.data.length s.data (le_refl _)]

theorem chunks_length_le (s : String) (n : ℕ) : ∀ c ∈ chunks s n, c.length ≤ n := by
  intro c hc
  simp only [chunks, List.mem_map, List.mem_range] at hc
  obtain ⟨j, -, rfl⟩ := hc
  show ((s.data.drop (j * n)).take n).length ≤ n
  rw [List.length_take]
  exact min_le_left _ _

/-- C6: the type branch splits the text into 50-character chunks (which
reassemble to the text), sends one wait-12ms type command per chunk with
no per-chunk screenshot, concatenates stdout and stderr across chunks in
order, and attaches exactly one screenshot, taken after the final
chunk. -/
theorem type_action_chunked (env : Env) (text : String) (sr : ToolResult)
    (hs : env.screenshot = .ok sr) :
    typeAction env text = .ok
      (⟨some (String.join ((chunks text TYPING_GROUP_SIZE).map
            (fun c => (env.run (typeCmd c)).1))),
        some (String.join ((chunks text TYPING_GROUP_SIZE).map
            (fun c => (env.run (typeCmd c)).2))),
        sr.base64Image, none⟩,
       (chunks text TYPING_GROUP_SIZE).map (fun c => Event.run (typeCmd c))
         ++ [Event.screenshot]) ∧
    (∀ c ∈ chunks text TYPING_GROUP_SIZE, c.length ≤ TYPING_GROUP_SIZE) ∧
    String.join (chunks text TYPING_GROUP_SIZE) = text ∧
    (∀ e ∈ (chunks text TYPING_GROUP_SIZE).map (fun c => Event.run (typeCmd c)),
      e ≠ Event.screenshot) := by
  refine ⟨?_, chunks_length_le text _, chunks_join50 text, ?_⟩
  · unfold typeAction
    rw [typeLoop_eq, hs]
    simp [List.map_map, Function.comp_def]
  · intro e he
    simp only [List.mem_map] at he
    obtain ⟨c, -, rfl⟩ := he
    simp

/-- C6 witness: a 60-character text types as two chunks with one final
screenshot. -/
theorem type_action_chunked_witness :
    envW.screenshot = .ok srW ∧
    (typeAction envW typeTextW = .ok
      (⟨some (String.join ((chunks typeTextW TYPING_GROUP_SIZE).map
            (fun c => (envW.run (typeCmd c)).1))),
        some (String.join ((chunks typeTextW TYPING_GROUP_SIZE).map
            (fun c => (envW.run (typeCmd c)).2))),
        srW.base64Image, none⟩,
       (chunks typeTextW TYPING_GROUP_SIZE).map (fun c => Event.run (typeCmd c))
         ++ [Event.screenshot]) ∧
    (∀ c ∈ chunks typeTextW TYPING_GROUP_SIZE, c.length ≤ TYPING_GROUP_SIZE) ∧
    String.join (chunks typeTextW TYPING_GROUP_SIZE) = typeTextW ∧
    (∀ e ∈ (chunks typeTextW TYPING_GROUP_SIZE).map (fun c => Event.run (typeCmd c)),
      e ≠ Event.screenshot)) :=
  ⟨rfl, type_action_chunked envW typeTextW srW rfl⟩

/-! ### C7: cursor position parsing -/

theorem string_data_append (a b : String) : (a ++ b).data = a.data ++ b.data := rfl

theorem string_mk_data (s : String) : String.mk s.data = s := rfl

theorem isPrefixOf_append_self : ∀ (l m : List Char), l.isPrefixOf (l ++ m) = true
  | [], _ => by simp [List.isPrefixOf]
  | c :: l, m => by simp [List.isPrefixOf, isPrefixOf_append_self l m]

theorem pySplitGo_mono (sep : List Char) (hsep : sep ≠ []) :
    ∀ (f1 : ℕ) (l : List Char) (f2 : ℕ), l.length ≤ f1 → l.length ≤ f2 →
      pySplitGo sep f1 l = pySplitGo sep f2 l := by
  have hseplen : 0 < sep.length := List.length_pos.mpr hsep
  intro f1
  induction f1 with
  | zero =>
      intro l f2 h1 _
      have : l = [] := List.eq_nil_of_length_eq_zero (by omega)
      subst this
      cases f2 <;> rfl
  | succ f ih =>
      intro l f2 h1 h2
      cases l with
      | nil => cases f2 <;> rfl
      | cons c rest =>
          cases f2 with
          | zero => simp at h2
          | succ f2' =>
              simp only [pySplitGo]
              by_cases hp : sep.isPrefixOf (c :: rest) = true
              · simp only [hp, if_true]
                have hlen : ((c :: rest).drop sep.length).length ≤ rest.length := by
                  rw [List.length_drop]
                  simp only [List.length_cons]
                  omega
                rw [ih _ f2' (by simp only [List.length_cons] at h1; omega)
                  (by simp only [List.length_cons] at h2; omega)]
              · simp only [hp, Bool.false_eq_true, if_false]
                rw [ih rest f2' (by simp only [List.length_cons] at h1; omega)
                  (by simp only [List.length_cons] at h2; omega)]

theorem pySplitGo_no_match (sep : List Char) (_hsep : sep ≠ []) :
    ∀ (fuel : ℕ) (l : List Char), l.length ≤ fuel → containsSub sep l = false →
      pySplitGo sep fuel l = [l] := by
  intro fuel
  induction fuel with
  | zero =>
      intro l h1 _
      have : l = [] := List.eq_nil_of_length_eq_zero (by omega)
      subst this
      rfl
  | succ f ih =>
      intro l h1 h2
      cases l with
      | nil => rfl
      | cons c rest =>
          simp only [containsSub, Bool.or_eq_false_iff] at h2
          simp only [pySplitGo, h2.1, Bool.false_eq_true, if_false]
          rw [ih rest (by simp only [List.length_cons] at h1; omega) h2.2]

theorem containsSub_of_head_not_mem (hc : Char) (tl l : List Char) (h : hc ∉ l) :
    containsSub (hc :: tl) l = false := by
  induction l with
  | nil => rfl
  | cons c rest ih =>
      simp only [containsSub, Bool.or_eq_false_iff]
      refine ⟨?_, ih (fun hm => h (List.mem_cons_of_mem c hm))⟩
      have hne : (hc == c) = false := by
        have : hc ≠ c := fun he => h (he ▸ List.mem_cons_self c rest)
        simpa using this
      simp [List.isPrefixOf, hne]

theorem pySplitGo_boundary (sep : List Char) (hc : Char) (tl : List Char)
    (hsep : sep = hc :: tl) :
    ∀ (a b : List Char) (fuel : ℕ), hc ∉ a → (a ++ sep ++ b).length ≤ fuel →
      pySplitGo sep fuel (a ++ sep ++ b) = a :: pySplitGo sep b.length b := by
  have hsl : 0 < sep.length := by rw [hsep]; simp
  intro a
  induction a with
  | nil =>
      intro b fuel hnotin hlen
      simp only [List.nil_append] at hlen ⊢
      rw [List.length_append] at hlen
      cases fuel with
      | zero => omega
      | succ f =>
          have hcons : sep ++ b = hc :: (tl ++ b) := by rw [hsep]; rfl
          rw [hcons]
          simp only [pySplitGo]
          have hpre : sep.isPrefixOf (hc :: (tl ++ b)) = true := by
            rw [← hcons]
            exact isPrefixOf_append_self sep b
          simp only [hpre, if_true]
          congr 1
          have hdrop : (hc :: (tl ++ b)).drop sep.length = b := by
            rw [← hcons]
            exact List.drop_left sep b
          rw [hdrop]
          exact pySplitGo_mono sep (by rw [hsep]; simp) f b b.length (by omega) (le_refl _)
  | cons x a' ih =>
      intro b fuel hnotin hlen
      have hx : (hc == x) = false := by
        have : hc ≠ x := fun he => hnotin (he ▸ List.mem_cons_self x a')
        simpa using this
      have hlen2 : (a' ++ sep ++ b).length + 1 ≤ fuel := by
        have h1 : (x :: a') ++ sep ++ b = x :: (a' ++ sep ++ b) := by simp
        rw [h1, List.length_cons] at hlen
        omega
      cases fuel with
      | zero => omega
      | succ f =>
          simp only [List.cons_append, pySplitGo, List.append_eq]
          have hpre : sep.isPrefixOf (x :: (a' ++ sep ++ b)) = false := by
            rw [hsep]
            simp [List.isPrefixOf, hx]
          simp only [hpre, Bool.false_eq_true, if_false]
          rw [ih b f (fun h => hnotin (List.mem_cons_of_mem x h)) (by omega)]

theorem pySplit_boundary (sep a b : String) (hc : Char) (tl : List Char)
    (hsep : sep.data = hc :: tl) (ha : hc ∉ a.data) :
    pySplit sep (a ++ sep ++ b) = a :: pySplit sep b := by
  unfold pySplit
  have hdata : (a ++ sep ++ b).data = a.data ++ sep.data ++ b.data := rfl
  rw [hdata, pySplitGo_boundary sep.data hc tl hsep a.data b.data _ ha (le_refl _)]
  rw [List.map_cons, string_mk_data]

theorem pySplit_no_match (sep s : String) (hsep : sep.data ≠ [])
    (h : containsSub sep.data s.data = false) : pySplit sep s = [s] := by
  unfold pySplit
  rw [pySplitGo_no_match sep.data hsep s.data.length s.data (le_refl _) h]
  rw [List.map_cons, List.map_nil, string_mk_data]

/-- C7: a backend report shaped Label colon-space x comma-space y is
parsed into the integer physical pair, converted with scaling source
COMPUTER, and formatted as X=..,Y=.. while keeping the stderr of the
query; a report with no colon-space separator, or with a non-numeric
component, fails with ParseError. -/
theorem cursor_position_parsed :
    (∀ (en : Bool) (W H : ℕ) (label xs ys stderr : String) (xv yv : ℤ),
      ':' ∉ label.data → ':' ∉ xs.data → ':' ∉ ys.data →
      ',' ∉ xs.data → ',' ∉ ys.data →
      pyInt? xs = some xv → pyInt? ys = some yv →
      cursorPositionResult en W H (label ++ ": " ++ (xs ++ ", " ++ ys)) stderr =
        .ok ⟨some ("X=" ++ toString (scale_coordinates en W H ScalingSource.COMPUTER xv yv).1
              ++ ",Y=" ++ toString (scale_coordinates en W H ScalingSource.COMPUTER xv yv).2),
             some stderr, none, none⟩) ∧
    (∀ (en : Bool) (W H : ℕ) (report stderr : String),
      containsSub (": ").data report.data = false →
      cursorPositionResult en W H report stderr =
        .error ⟨ErrorKind.parseError, "Failed to parse cursor position"⟩) ∧
    (∀ (en : Bool) (W H : ℕ) (label xs ys stderr : String),
      ':' ∉ label.data → ':' ∉ xs.data → ':' ∉ ys.data →
      ',' ∉ xs.data → ',' ∉ ys.data →
      pyInt? xs = none →
      cursorPositionResult en W H (label ++ ": " ++ (xs ++ ", " ++ ys)) stderr =
        .error ⟨ErrorKind.parseError, "Failed to parse cursor position"⟩) := by
  have hsepc : (": " : String).data = ':' :: [' '] := rfl
  have hsepc2 : (", " : String).data = ',' :: [' '] := rfl
  refine ⟨?_, ?_, ?_⟩
  · intro en W H label xs ys stderr xv yv h1 h2 h3 h4 h5 hx hy
    unfold cursorPositionResult parseCursorOutput
    rw [pySplit_boundary ": " label (xs ++ ", " ++ ys) ':' [' '] hsepc h1]
    rw [pySplit_no_match ": " (xs ++ ", " ++ ys) (by rw [hsepc]; simp) (by
      apply containsSub_of_head_not_mem
      intro hmem
      have : (xs ++ ", " ++ ys).data = xs.data ++ (", " : String).data ++ ys.data := rfl
      rw [this, hsepc2] at hmem
      simp only [List.mem_append, List.mem_cons, List.mem_singleton] at hmem
      rcases hmem with (hmem | hmem) | hmem
      · exact h2 hmem
      · rcases hmem with hmem | hmem <;> simp_all
      · exact h3 hmem)]
    simp only [List.getElem?_cons_succ, List.getElem?_cons_zero]
    rw [pySplit_boundary ", " xs ys ',' [' '] hsepc2 h4]
    rw [pySplit_no_match ", " ys (by rw [hsepc2]; simp) (by
      apply containsSub_of_head_not_mem
      exact h5)]
    simp only [List.getElem?_cons_succ, List.getElem?_cons_zero, hx, hy]
  · intro en W H report stderr h
    unfold cursorPositionResult parseCursorOutput
    rw [pySplit_no_match ": " report (by rw [hsepc]; simp) h]
    rfl
  · intro en W H label xs ys stderr h1 h2 h3 h4 h5 hx
    unfold cursorPositionResult parseCursorOutput
    rw [pySplit_boundary ": " label (xs ++ ", " ++ ys) ':' [' '] hsepc h1]
    rw [pySplit_no_match ": " (xs ++ ", " ++ ys) (by rw [hsepc]; simp) (by
      apply containsSub_of_head_not_mem
      intro hmem
      have : (xs ++ ", " ++ ys).data = xs.data ++ (", " : String).data ++ ys.data := rfl
      rw [this, hsepc2] at hmem
      simp only [List.mem_append, List.mem_cons, List.mem_singleton] at hmem
      rcases hmem with (hmem | hmem) | hmem
      · exact h2 hmem
      · rcases hmem with hmem | hmem <;> simp_all
      · exact h3 hmem)]
    simp only [List.getElem?_cons_succ, List.getElem?_cons_zero]
    rw [pySplit_boundary ", " xs ys ',' [' '] hsepc2 h4]
    rw [pySplit_no_match ", " ys (by rw [hsepc2]; simp) (by
      apply containsSub_of_head_not_mem
      exact h5)]
    simp only [List.getElem?_cons_succ, List.getElem?_cons_zero, hx]

/-- C7 witness: the spec's example report Point colon-space 100
comma-space 200 under the Retina configuration parses, scales to
(50, 100) and formats as X=50,Y=100; the pieces concatenate to the
literal report string. -/
theorem cursor_position_parsed_witness :
    ("Point" ++ ": " ++ ("100" ++ ", " ++ "200") = "Point: 100, 200") ∧
    (pyInt? "100" = some 100 ∧ pyInt? "200" = some 200 ∧ ':' ∉ "Point".data) ∧
    cursorPositionResult true 3456 2234 ("Point" ++ ": " ++ ("100" ++ ", " ++ "200")) "" =
      .ok ⟨some ("X=" ++ toString (scale_coordinates true 3456 2234
              ScalingSource.COMPUTER 100 200).1
            ++ ",Y=" ++ toString (scale_coordinates true 3456 2234
              ScalingSource.COMPUTER 100 200).2),
           some "", none, none⟩ ∧
    cursorPositionResult true 3456 2234 "Point: 100, 200" "" =
      .ok ⟨some "X=50,Y=100", some "", none, none⟩ :=
  ⟨by decide, ⟨by with_unfolding_all decide, by with_unfolding_all decide, by decide⟩,
   cursor_position_parsed.1 true 3456 2234 "Point" "100" "200" "" 100 200
     (by decide) (by decide) (by decide) (by decide) (by decide)
     (by with_unfolding_all decide) (by with_unfolding_all decide),
   by with_unfolding_all decide⟩

/-! ### C3: no bounds check on agent-space input -/

/-- C3 (amended): the dispatcher performs no bounds check on agent-space
coordinates: a non-negative mouse_move coordinate whose x exceeds the
configured logical width is not rejected with OutOfBounds but scaled by
the fixed ratios and sent to the backend. -/
theorem mouse_move_out_of_bounds_scaled (env : Env) (W H : ℕ) (dn : Option ℤ)
    (x y : ℤ) (sr : ToolResult)
    (hx0 : 0 ≤ x) (hy0 : 0 ≤ y) (_hxW : (W : ℤ) < x)
    (hs : env.screenshot = .ok sr) :
    dispatch env ⟨W, H, dn, true⟩ "mouse_move" none (some [x, y]) =
      .ok (⟨some (env.run ("cliclick m:"
            ++ toString (scale_coordinates true W H ScalingSource.API x y).1 ++ ","
            ++ toString (scale_coordinates true W H ScalingSource.API x y).2)).1,
           some (env.run ("cliclick m:"
            ++ toString (scale_coordinates true W H ScalingSource.API x y).1 ++ ","
            ++ toString (scale_coordinates true W H ScalingSource.API x y).2)).2,
           sr.base64Image, none⟩,
          [Event.run ("cliclick m:"
            ++ toString (scale_coordinates true W H ScalingSource.API x y).1 ++ ","
            ++ toString (scale_coordinates true W H ScalingSource.API x y).2),
           Event.screenshot]) := by
  simp [dispatch, shell, hs, hx0, hy0]

/-- C3 counterexample: at configuration 1000 x 1000 the out-of-bounds
coordinate (5000, 400) does not fail with OutOfBounds (or at all): it is
scaled to (2894, 358) and dispatched. -/
theorem mouse_move_out_of_bounds_counterexample :
    ((1000 : ℤ) < 5000) ∧
    dispatch envW ⟨1000, 1000, some 1, true⟩ "mouse_move" none (some [5000, 400])
      = .ok (⟨some "cliclick m:2894,358", some "", some "IMG64", none⟩,
          [Event.run "cliclick m:2894,358", Event.screenshot]) ∧
    failsWith (dispatch envW ⟨1000, 1000, some 1, true⟩ "mouse_move" none
        (some [5000, 400])) ErrorKind.outOfBounds = false := by
  with_unfolding_all decide

/-- C3 witness: at configuration 1000 x 1000 the out-of-bounds
coordinate (5000, 400) is scaled and dispatched. -/
theorem mouse_move_out_of_bounds_scaled_witness :
    ((0 : ℤ) ≤ 5000 ∧ (0 : ℤ) ≤ 400 ∧ ((1000 : ℕ) : ℤ) < 5000 ∧
      envW.screenshot = .ok srW) ∧
    dispatch envW ⟨1000, 1000, some 1, true⟩ "mouse_move" none (some [5000, 400]) =
      .ok (⟨some (envW.run ("cliclick m:"
            ++ toString (scale_coordinates true 1000 1000 ScalingSource.API 5000 400).1 ++ ","
            ++ toString (scale_coordinates true 1000 1000 ScalingSource.API 5000 400).2)).1,
           some (envW.run ("cliclick m:"
            ++ toString (scale_coordinates true 1000 1000 ScalingSource.API 5000 400).1 ++ ","
            ++ toString (scale_coordinates true 1000 1000 ScalingSource.API 5000 400).2)).2,
           srW.base64Image, none⟩,
          [Event.run ("cliclick m:"
            ++ toString (scale_coordinates true 1000 1000 ScalingSource.API 5000 400).1 ++ ","
            ++ toString (scale_coordinates true 1000 1000 ScalingSource.API 5000 400).2),
           Event.screenshot]) :=
  ⟨⟨by decide, by decide, by decide, rfl⟩,
   mouse_move_out_of_bounds_scaled envW 1000 1000 (some 1) 5000 400 srW
     (by decide) (by decide) (by decide) rfl⟩

/-! ### C8: the dispatcher grammar -/

/-- C8: every request violating the field grammar fails with
InvalidArgument: mouse_move and left_click_drag require a 2-element
non-negative coordinate and forbid text; key and type require text and
forbid coordinate; the click, screenshot and cursor_position actions
forbid both; an action name outside the fixed set is rejected. -/
theorem dispatch_grammar_invalid_argument (env : Env) (tool : ComputerToolState)
    (action : String) (text : Option String) (coordinate : Option (List ℤ))
    (h : grammarOkSpec action text coordinate = false) :
    failsWith (dispatch env tool action text coordinate)
      ErrorKind.invalidArgument = true := by
  unfold grammarOkSpec at h
  by_cases h1 : action ∈ ["mouse_move", "left_click_drag"]
  · rw [if_pos h1] at h
    cases coordinate with
    | none => simp [dispatch, failsWith, h1]
    | some coord =>
        cases text with
        | some t => simp [dispatch, failsWith, h1]
        | none =>
            simp only [Option.isNone_none, Bool.true_and] at h
            by_cases hlen : coord.length = 2
            · by_cases hall : coord.all (fun i => decide (0 ≤ i)) = true
              · rw [hlen] at h
                simp [hall] at h
              · have hall' : coord.all (fun i => decide (0 ≤ i)) = false := by
                  revert hall
                  cases coord.all (fun i => decide (0 ≤ i)) <;> simp
                simp [dispatch, failsWith, h1, hlen, hall']
            · simp [dispatch, failsWith, h1, hlen]
  · by_cases h2 : action ∈ ["key", "type"]
    · rw [if_neg h1, if_pos h2] at h
      cases text with
      | none => simp [dispatch, failsWith, h1, h2]
      | some t =>
          cases coordinate with
          | some c => simp [dispatch, failsWith, h1, h2]
          | none => simp at h
    · by_cases h3 : action ∈ ["left_click", "right_click", "double_click",
          "middle_click", "screenshot", "cursor_position"]
      · rw [if_neg h1, if_neg h2, if_pos h3] at h
        cases text with
        | some t => simp [dispatch, failsWith, h1, h2, h3]
        | none =>
            cases coordinate with
            | some c => simp [dispatch, failsWith, h1, h2, h3]
            | none => simp at h
      · simp [dispatch, failsWith, h1, h2, h3]

/-- C8 witness: mouse_move without a coordinate violates the grammar and
fails with InvalidArgument. -/
theorem dispatch_grammar_invalid_argument_witness :
    grammarOkSpec "mouse_move" none none = false ∧
    failsWith (dispatch envW ⟨1000, 1000, some 1, true⟩ "mouse_move" none none)
      ErrorKind.invalidArgument = true :=
  ⟨by decide, dispatch_grammar_invalid_argument envW ⟨1000, 1000, some 1, true⟩
    "mouse_move" none none (by decide)⟩

/-! ### C9: middle click -/

/-- C9: a well-formed middle_click dispatch (no text, no coordinate)
always fails with UnsupportedAction: the click table maps middle_click
to Python None because cliclick has no middle click. -/
theorem middle_click_unsupported (env : Env) (tool : ComputerToolState) :
    dispatch env tool "middle_click" none none =
      .error ⟨ErrorKind.unsupportedAction,
        "Action middle_click is not supported by cliclick on macOS"⟩ := rfl

end ComputerDemo
